import Mathlib

/-!
Shallow embedding of the tap-story native audio engine
(`src/mobile/android/app/src/main/cpp/AudioEngine.h` / `AudioEngine.cpp`).

Modelling choices:
* Audio samples (C++ `float`) are modelled as rationals `ℚ`; frame and
  sample counters (`int32_t` / `int64_t`) as `Int`, loop counters as `Nat`.
* The interleaved stereo output buffer is a function `Nat → ℚ` from slot
  index to value (slot `2*i` is the left channel of frame `i`, `2*i+1` the
  right channel).
* Oboe stream handles become `Option StreamState`; device-level outcomes
  (stream open / start success, the `is_open` result of the recording
  sink, the sample count returned by the non-blocking mic read) are
  parameters, since they are produced by external collaborators.
* `std::tanh` is an abstract parameter `tanh : ℚ → ℚ` — the engine only
  decides *when* it is applied.
* The two-thread structure collapses to sequential state passing; atomics
  and the track mutex need no counterpart in that model.
-/

namespace AudioEngine

/-- Oboe stream lifecycle states used by the engine (`oboe::StreamState`
values the code inspects). -/
inductive StreamState where
  | Closed
  | Open
  | Stopped
  | Started
deriving DecidableEq, Repr

/-- Mirror of `struct Track` (AudioEngine.h): converted float samples plus
timeline placement. -/
structure Track where
  data : List ℚ
  startFrame : Int
  lengthFrames : Int
deriving DecidableEq, Repr

/-- Mirror of the `AudioEngine` member state (AudioEngine.h):
`mTracks`, the two stream handles, `mIsRecording`, `mRecordingFile`
(open flag plus bytes written, as a list of int16 samples),
`mRecordStartFrame`, `mRecordedSampleCount`, `mCurrentFrame`,
`mIsRunning`. -/
structure EngineState where
  tracks : List Track
  playStream : Option StreamState
  recordStream : Option StreamState
  isRecording : Bool
  recordingFileOpen : Bool
  recordFileData : List Int
  recordStartFrame : Int
  recordedSampleCount : Int
  currentFrame : Int
  isRunning : Bool
deriving DecidableEq, Repr

/-- The fixed int16-to-float scale in `loadTrack`:
`const float scalar = 1.0f / 32768.0f; data[i] * scalar`. -/
def convertSample (v : Int) : ℚ :=
  (v : ℚ) * (1 / 32768)

/-- `AudioEngine::loadTrack`: converts the raw int16 buffer with
`convertSample` and appends a new `Track` (startFrame as given,
`lengthFrames = numSamples`). `trackId` is only logged. -/
def loadTrack (s : EngineState) (trackId : String) (data : List Int)
    (startFrame : Int) : EngineState :=
  { s with tracks := s.tracks ++
      [{ data := data.map convertSample
         startFrame := startFrame
         lengthFrames := (data.length : Int) }] }

/-- `AudioEngine::clearTracks`. -/
def clearTracks (s : EngineState) : EngineState :=
  { s with tracks := [] }

/-- Getter `getRecordingStartFrame` (AudioEngine.h). -/
def getRecordingStartFrame (s : EngineState) : Int :=
  s.recordStartFrame

/-- Getter `getRecordedSampleCount` (AudioEngine.h). -/
def getRecordedSampleCount (s : EngineState) : Int :=
  s.recordedSampleCount

/-- Getter `getCurrentFrame` (AudioEngine.h). -/
def getCurrentFrame (s : EngineState) : Int :=
  s.currentFrame

/-- `AudioEngine::startRecording`: stores the gating threshold, zeroes the
counter, then attempts to open the sink; `openOk` is the resulting
`mRecordingFile.is_open()` (an external filesystem outcome). Only when the
sink is open is `mIsRecording` set. -/
def startRecording (s : EngineState) (openOk : Bool) (startFrame : Int) :
    EngineState :=
  let s1 : EngineState :=
    { s with recordStartFrame := startFrame
             recordedSampleCount := 0
             recordingFileOpen := openOk
             recordFileData := if openOk then [] else s.recordFileData }
  if openOk then { s1 with isRecording := true } else s1

/-- `AudioEngine::stopRecording`: clears the flag and closes the sink if
open. -/
def stopRecording (s : EngineState) : EngineState :=
  { s with isRecording := false, recordingFileOpen := false }

/-- `AudioEngine::seekToFrame`: `mCurrentFrame.store(frame)`. -/
def seekToFrame (s : EngineState) (frame : Int) : EngineState :=
  { s with currentFrame := frame }

/-- Effect of `stream->stop()` on a handle: an existing stream becomes
`Stopped`; a missing handle stays missing. -/
def stopStream : Option StreamState → Option StreamState
  | some _ => some StreamState.Stopped
  | none => none

/-- `AudioEngine::stop`: early-returns when not running; otherwise clears
`mIsRunning` and stops (never closes) both streams. The frame counter is
deliberately left untouched. -/
def stop (s : EngineState) : EngineState :=
  if s.isRunning then
    { s with isRunning := false
             playStream := stopStream s.playStream
             recordStream := stopStream s.recordStream }
  else s

/-- `AudioEngine::reset`: clears `mIsRunning`, stops and closes both
streams (`closeStreams` drops the handles) and stores 0 into
`mCurrentFrame`. -/
def reset (s : EngineState) : EngineState :=
  { s with isRunning := false
           playStream := none
           recordStream := none
           currentFrame := 0 }

/-- Device-level results a `start()` call depends on: whether each
`openStream` and each `stream->start()` succeeds. -/
structure DeviceOutcome where
  openPlayOk : Bool
  openRecOk : Bool
  startRecOk : Bool
  startPlayOk : Bool
deriving DecidableEq, Repr

/-- `AudioEngine::openStreams`: opens the play stream first and returns
early on failure; then opens the record stream (failure there is
tolerated: "Continue without recording capability"). -/
def openStreams (d : DeviceOutcome) (s : EngineState) : EngineState :=
  if d.openPlayOk then
    let s1 := { s with playStream := some StreamState.Open }
    if d.openRecOk then { s1 with recordStream := some StreamState.Open }
    else s1
  else s

/-- The state test `state == Stopped || state == Open` used by `start()`
for each stream. -/
def startable : Option StreamState → Bool
  | some StreamState.Stopped => true
  | some StreamState.Open => true
  | _ => false

/-- `AudioEngine::start`: early-returns when already running; opens the
streams only when the play stream is absent or closed; starts the record
stream first, then the play stream; sets `mIsRunning` only on a successful
play-stream start. `mCurrentFrame` is never written. -/
def start (d : DeviceOutcome) (s : EngineState) : EngineState :=
  if s.isRunning then s
  else
    let s1 :=
      if s.playStream = none ∨ s.playStream = some StreamState.Closed then
        openStreams d s
      else s
    let s2 :=
      if startable s1.recordStream && d.startRecOk then
        { s1 with recordStream := some StreamState.Started }
      else s1
    if startable s2.playStream then
      if d.startPlayOk then
        { s2 with playStream := some StreamState.Started, isRunning := true }
      else s2
    else s2

/-- Body of the inner mixing loop of `onAudioReady` for one frame index
`i`: `sampleIndex = trackOffset + i`; when `0 <= sampleIndex <
lengthFrames`, add `track.data[sampleIndex]` to slots `i*2` and `i*2+1`. -/
def stepFrame (t : Track) (trackOffset : Int) (i : Nat) (buf : Nat → ℚ) :
    Nat → ℚ :=
  let sampleIndex := trackOffset + (i : Int)
  if 0 ≤ sampleIndex ∧ sampleIndex < t.lengthFrames then
    fun j =>
      if j = 2 * i then buf j + t.data.getD sampleIndex.toNat 0
      else if j = 2 * i + 1 then buf j + t.data.getD sampleIndex.toNat 0
      else buf j
  else buf

/-- The loop `for i in [0, numFrames)` of the mix path, applied to one
track (frames processed in increasing order of `i`). -/
def mixTrackFrames (t : Track) (trackOffset : Int) :
    Nat → (Nat → ℚ) → (Nat → ℚ)
  | 0, buf => buf
  | n + 1, buf => stepFrame t trackOffset n (mixTrackFrames t trackOffset n buf)

/-- One track's pass of the mix loop: computes
`trackOffset = currentFrame - track.startFrame` and runs the inner loop
only under the overlap guard
`trackOffset < lengthFrames && trackOffset + numFrames > 0`. -/
def mixTrack (currentFrame : Int) (numFrames : Nat) (buf : Nat → ℚ)
    (t : Track) : Nat → ℚ :=
  let trackOffset := currentFrame - t.startFrame
  if trackOffset < t.lengthFrames ∧ 0 < trackOffset + (numFrames : Int) then
    mixTrackFrames t trackOffset numFrames buf
  else buf

/-- The full mix pass: zero the interleaved buffer (`std::fill` with 0)
then accumulate every loaded track in insertion order. -/
def mixTracks (tracks : List Track) (currentFrame : Int) (numFrames : Nat) :
    Nat → ℚ :=
  tracks.foldl (mixTrack currentFrame numFrames) (fun _ => 0)

/-- The per-sample soft clip of `onAudioReady`: samples with
`sample > 1.0f || sample < -1.0f` are replaced by `std::tanh(sample)`,
all others pass through. -/
def softClipVal (tanh : ℚ → ℚ) (sample : ℚ) : ℚ :=
  if 1 < sample ∨ sample < -1 then tanh sample else sample

/-- The soft-clipping loop over all `numFrames * 2` interleaved slots. -/
def softClipPass (tanh : ℚ → ℚ) (numFrames : Nat) (buf : Nat → ℚ) :
    Nat → ℚ :=
  fun j => if j < numFrames * 2 then softClipVal tanh (buf j) else buf j

/-- The recording section of `onAudioReady`: when the record stream is
`Started`, a non-blocking read returns `readCount` samples (`micData` is
the filled scratch buffer, an external input). If the read yielded a
positive count, recording is enabled and the sink is open, then — only
when `currentFrame >= mRecordStartFrame` — the `readCount` samples read
are appended to the sink and added to `mRecordedSampleCount`. -/
def captureStep (s : EngineState) (currentFrame : Int) (readCount : Int)
    (micData : List Int) : EngineState :=
  if s.recordStream = some StreamState.Started then
    if 0 < readCount ∧ s.isRecording ∧ s.recordingFileOpen then
      if s.recordStartFrame ≤ currentFrame then
        { s with recordFileData := s.recordFileData ++ micData.take readCount.toNat
                 recordedSampleCount := s.recordedSampleCount + readCount }
      else s
    else s
  else s

/-- `AudioEngine::onAudioReady`: reads `mCurrentFrame` once, runs the
capture section, then the mix and soft-clip passes over the same
`currentFrame`, and finally advances the clock by `numFrames`
(`mCurrentFrame.fetch_add(numFrames)`). Returns the new state and the
output buffer. -/
def onAudioReady (tanh : ℚ → ℚ) (s : EngineState) (numFrames : Nat)
    (readCount : Int) (micData : List Int) : EngineState × (Nat → ℚ) :=
  let currentFrame := s.currentFrame
  let s1 := captureStep s currentFrame readCount micData
  let mixed := mixTracks s.tracks currentFrame numFrames
  let out := softClipPass tanh numFrames mixed
  ({ s1 with currentFrame := s1.currentFrame + (numFrames : Int) }, out)

/-- Inputs delivered to one audio callback by the device layer. -/
structure CallbackInput where
  numFrames : Nat
  readCount : Int
  micData : List Int

/-- A sequence of audio callbacks with no intervening control calls. -/
def runCallbacks (tanh : ℚ → ℚ) (s : EngineState)
    (calls : List CallbackInput) : EngineState :=
  calls.foldl (fun st c => (onAudioReady tanh st c.numFrames c.readCount c.micData).1) s

/-- A concrete engine state used by the witnesses: both streams started,
recording armed from frame 0, clock at 0. -/
def sampleState : EngineState :=
  { tracks := []
    playStream := some StreamState.Started
    recordStream := some StreamState.Started
    isRecording := true
    recordingFileOpen := true
    recordFileData := []
    recordStartFrame := 0
    recordedSampleCount := 0
    currentFrame := 0
    isRunning := true }

/-! ### Helper lemmas -/

lemma captureStep_currentFrame (s : EngineState) (cf rc : Int)
    (md : List Int) : (captureStep s cf rc md).currentFrame = s.currentFrame := by
  simp only [captureStep]
  split_ifs <;> rfl

lemma onAudioReady_currentFrame (tanh : ℚ → ℚ) (s : EngineState) (n : Nat)
    (rc : Int) (md : List Int) :
    (onAudioReady tanh s n rc md).1.currentFrame = s.currentFrame + (n : Int) := by
  simp [onAudioReady, captureStep_currentFrame]

lemma runCallbacks_currentFrame (tanh : ℚ → ℚ) (calls : List CallbackInput) :
    ∀ s : EngineState, (runCallbacks tanh s calls).currentFrame =
      s.currentFrame + (calls.map fun c => (c.numFrames : Int)).sum := by
  induction calls with
  | nil => intro s; simp [runCallbacks]
  | cons c cs ih =>
    intro s
    show (runCallbacks tanh
        (onAudioReady tanh s c.numFrames c.readCount c.micData).1 cs).currentFrame = _
    rw [ih, onAudioReady_currentFrame]
    simp only [List.map_cons, List.sum_cons]
    ring

lemma stop_currentFrame (s : EngineState) :
    (stop s).currentFrame = s.currentFrame := by
  simp only [stop]
  split_ifs <;> rfl

lemma openStreams_currentFrame (d : DeviceOutcome) (s : EngineState) :
    (openStreams d s).currentFrame = s.currentFrame := by
  simp only [openStreams]
  split_ifs <;> rfl

lemma start_currentFrame (d : DeviceOutcome) (s : EngineState) :
    (start d s).currentFrame = s.currentFrame := by
  simp only [start]
  split_ifs <;> simp [openStreams_currentFrame]

lemma stepFrame_of_ne (t : Track) (off : Int) (i : Nat) (buf : Nat → ℚ)
    (j : Nat) (h1 : j ≠ 2 * i) (h2 : j ≠ 2 * i + 1) :
    stepFrame t off i buf j = buf j := by
  simp only [stepFrame]
  split_ifs with h
  · simp [h1, h2]
  · rfl

lemma stepFrame_self (t : Track) (off : Int) (i : Nat) (buf : Nat → ℚ) :
    stepFrame t off i buf (2 * i) =
      buf (2 * i) + (if 0 ≤ off + (i : Int) ∧ off + (i : Int) < t.lengthFrames
        then t.data.getD (off + (i : Int)).toNat 0 else 0) ∧
    stepFrame t off i buf (2 * i + 1) =
      buf (2 * i + 1) + (if 0 ≤ off + (i : Int) ∧ off + (i : Int) < t.lengthFrames
        then t.data.getD (off + (i : Int)).toNat 0 else 0) := by
  simp only [stepFrame]
  split_ifs with h
  · constructor
    · simp
    · have hne : 2 * i + 1 ≠ 2 * i := by omega
      simp [hne]
  · simp

lemma mixTrackFrames_of_le (t : Track) (off : Int) (n : Nat) :
    ∀ (buf : Nat → ℚ) (j : Nat), 2 * n ≤ j →
      mixTrackFrames t off n buf j = buf j := by
  induction n with
  | zero => intro buf j _; rfl
  | succ n ih =>
    intro buf j h
    show stepFrame t off n (mixTrackFrames t off n buf) j = buf j
    rw [stepFrame_of_ne t off n _ j (by omega) (by omega)]
    exact ih buf j (by omega)

lemma mixTrackFrames_slot (t : Track) (off : Int) (n : Nat) :
    ∀ (buf : Nat → ℚ) (i : Nat), i < n →
      mixTrackFrames t off n buf (2 * i) =
        buf (2 * i) + (if 0 ≤ off + (i : Int) ∧ off + (i : Int) < t.lengthFrames
          then t.data.getD (off + (i : Int)).toNat 0 else 0) ∧
      mixTrackFrames t off n buf (2 * i + 1) =
        buf (2 * i + 1) + (if 0 ≤ off + (i : Int) ∧ off + (i : Int) < t.lengthFrames
          then t.data.getD (off + (i : Int)).toNat 0 else 0) := by
  induction n with
  | zero => intro buf i h; exact absurd h (Nat.not_lt_zero i)
  | succ n ih =>
    intro buf i h
    rcases Nat.lt_succ_iff_lt_or_eq.mp h with h1 | rfl
    · constructor
      · show stepFrame t off n (mixTrackFrames t off n buf) (2 * i) = _
        rw [stepFrame_of_ne t off n _ _ (by omega) (by omega)]
        exact (ih buf i h1).1
      · show stepFrame t off n (mixTrackFrames t off n buf) (2 * i + 1) = _
        rw [stepFrame_of_ne t off n _ _ (by omega) (by omega)]
        exact (ih buf i h1).2
    · have e := stepFrame_self t off i (mixTrackFrames t off i buf)
      constructor
      · show stepFrame t off i (mixTrackFrames t off i buf) (2 * i) = _
        rw [e.1, mixTrackFrames_of_le t off i buf (2 * i) (by omega)]
      · show stepFrame t off i (mixTrackFrames t off i buf) (2 * i + 1) = _
        rw [e.2, mixTrackFrames_of_le t off i buf (2 * i + 1) (by omega)]

/-! ### Claim theorems -/

/-- C1: for every track, clock value `currentFrame` and buffer length
`numFrames`, and each output frame index `i < numFrames` with
`sampleIndex = (currentFrame - track.startFrame) + i`: the mix adds
`track.data[sampleIndex]` to both interleaved output slots `2*i` (left)
and `2*i+1` (right) exactly when `0 ≤ sampleIndex < lengthFrames`, and
contributes nothing to those slots otherwise. -/
theorem mix_track_overlap (t : Track) (currentFrame : Int) (numFrames : Nat)
    (buf : Nat → ℚ) (i : Nat) (hi : i < numFrames) :
    (0 ≤ currentFrame - t.startFrame + (i : Int) ∧
        currentFrame - t.startFrame + (i : Int) < t.lengthFrames →
      mixTrack currentFrame numFrames buf t (2 * i) =
        buf (2 * i) + t.data.getD (currentFrame - t.startFrame + (i : Int)).toNat 0 ∧
      mixTrack currentFrame numFrames buf t (2 * i + 1) =
        buf (2 * i + 1) + t.data.getD (currentFrame - t.startFrame + (i : Int)).toNat 0) ∧
    (¬ (0 ≤ currentFrame - t.startFrame + (i : Int) ∧
        currentFrame - t.startFrame + (i : Int) < t.lengthFrames) →
      mixTrack currentFrame numFrames buf t (2 * i) = buf (2 * i) ∧
      mixTrack currentFrame numFrames buf t (2 * i + 1) = buf (2 * i + 1)) := by
  simp only [mixTrack]
  split_ifs with hg
  · have hs := mixTrackFrames_slot t (currentFrame - t.startFrame) numFrames buf i hi
    constructor
    · intro hin
      rw [if_pos hin] at hs
      exact hs
    · intro hout
      rw [if_neg hout] at hs
      simp only [add_zero] at hs
      exact hs
  · constructor
    · intro hin
      exfalso
      omega
    · intro _
      exact ⟨rfl, rfl⟩

theorem mix_track_overlap_witness :
    mixTrack 0 2 (fun _ => 0)
      { data := [1/2, 3/4, 7/8], startFrame := 0, lengthFrames := 3 } 2 = 3/4 := by
  have h := ((mix_track_overlap
    { data := [1/2, 3/4, 7/8], startFrame := 0, lengthFrames := 3 }
    0 2 (fun _ => 0) 1 (by decide)).1 (by decide)).1
  simpa using h

/-- C2: the soft-clip step leaves every sample of magnitude at most 1
unchanged, replaces every sample of magnitude above 1 by its hyperbolic
tangent (in particular a summed value of exactly 2 maps to `tanh 2`), and
the clipping pass applies exactly this map to every interleaved slot of
the output buffer. -/
theorem soft_clip_spec (tanh : ℚ → ℚ) (x : ℚ) (numFrames : Nat)
    (buf : Nat → ℚ) (j : Nat) :
    (|x| ≤ 1 → softClipVal tanh x = x) ∧
    (1 < |x| → softClipVal tanh x = tanh x) ∧
    softClipVal tanh 2 = tanh 2 ∧
    (j < numFrames * 2 → softClipPass tanh numFrames buf j = softClipVal tanh (buf j)) := by
  refine ⟨?_, ?_, ?_, ?_⟩
  · intro h
    rw [abs_le] at h
    simp only [softClipVal]
    split_ifs with hc
    · exfalso
      rcases hc with h1 | h1 <;> linarith [h.1, h.2]
    · rfl
  · intro h
    simp only [softClipVal]
    split_ifs with hc
    · rfl
    · exfalso
      push_neg at hc
      rcases lt_abs.mp h with h1 | h1 <;> linarith [hc.1, hc.2]
  · simp only [softClipVal]
    split_ifs with hc
    · rfl
    · exact absurd (Or.inl (by norm_num)) hc
  · intro h
    simp only [softClipPass]
    rw [if_pos h]

theorem soft_clip_spec_witness :
    softClipVal (fun q => q) (1/2) = 1/2 ∧
    softClipVal (fun q => q - 3) 2 = (fun q => q - 3) 2 := by
  constructor
  · exact (soft_clip_spec (fun q => q) (1/2) 0 (fun _ => 0) 0).1
      (abs_le.mpr ⟨by norm_num, by norm_num⟩)
  · exact (soft_clip_spec (fun q => q - 3) 2 0 (fun _ => 0) 0).2.2.1

/-- C3: in every callback the capture step and the mix step observe the
same `currentFrame` value read once at entry (the capture effect is that
of `captureStep` at `s.currentFrame`, the output buffer is the clipped mix
at `s.currentFrame`), the clock afterwards equals its entry value plus
`numFrames`, a seek-free sequence of callbacks advances the clock by
exactly the sum of the delivered frame counts, and each callback with a
positive frame count strictly increases the clock. -/
theorem clock_advance (tanh : ℚ → ℚ) (s : EngineState) (numFrames : Nat)
    (readCount : Int) (micData : List Int) (calls : List CallbackInput) :
    (onAudioReady tanh s numFrames readCount micData).1.currentFrame =
        s.currentFrame + (numFrames : Int) ∧
    (onAudioReady tanh s numFrames readCount micData).2 =
        softClipPass tanh numFrames (mixTracks s.tracks s.currentFrame numFrames) ∧
    (onAudioReady tanh s numFrames readCount micData).1.recordFileData =
        (captureStep s s.currentFrame readCount micData).recordFileData ∧
    (onAudioReady tanh s numFrames readCount micData).1.recordedSampleCount =
        (captureStep s s.currentFrame readCount micData).recordedSampleCount ∧
    (runCallbacks tanh s calls).currentFrame =
        s.currentFrame + (calls.map fun c => (c.numFrames : Int)).sum ∧
    (0 < numFrames →
        s.currentFrame < (onAudioReady tanh s numFrames readCount micData).1.currentFrame) := by
  refine ⟨onAudioReady_currentFrame tanh s numFrames readCount micData, rfl, rfl, rfl,
    runCallbacks_currentFrame tanh calls s, ?_⟩
  intro h
  rw [onAudioReady_currentFrame]
  omega

theorem clock_advance_witness :
    sampleState.currentFrame <
      (onAudioReady (fun q => q) sampleState 4 0 []).1.currentFrame :=
  (clock_advance (fun q => q) sampleState 4 0 [] []).2.2.2.2.2 (by decide)

/-- C4: in a callback where the non-blocking read returned
`readCount ≥ 1` samples, recording is enabled and the sink is open: when
`currentFrame ≥ recordStartFrame` the `readCount` samples read are
appended to the sink and the captured-sample counter grows by exactly
`readCount`; when `currentFrame < recordStartFrame` the sink and the
counter are unchanged. -/
theorem capture_gating (tanh : ℚ → ℚ) (s : EngineState) (numFrames : Nat)
    (readCount : Int) (micData : List Int)
    (hstream : s.recordStream = some StreamState.Started)
    (hread : 1 ≤ readCount)
    (hrec : s.isRecording = true)
    (hopen : s.recordingFileOpen = true) :
    (s.recordStartFrame ≤ s.currentFrame →
      (onAudioReady tanh s numFrames readCount micData).1.recordFileData =
          s.recordFileData ++ micData.take readCount.toNat ∧
      (onAudioReady tanh s numFrames readCount micData).1.recordedSampleCount =
          s.recordedSampleCount + readCount) ∧
    (s.currentFrame < s.recordStartFrame →
      (onAudioReady tanh s numFrames readCount micData).1.recordFileData =
          s.recordFileData ∧
      (onAudioReady tanh s numFrames readCount micData).1.recordedSampleCount =
          s.recordedSampleCount) := by
  have hrc : (0 : Int) < readCount := by omega
  constructor
  · intro h
    constructor <;>
      simp [onAudioReady, captureStep, hstream, hrec, hopen, hrc, h]
  · intro h
    have hn : ¬ s.recordStartFrame ≤ s.currentFrame := by omega
    constructor <;>
      simp [onAudioReady, captureStep, hstream, hrec, hopen, hrc, hn]

theorem capture_gating_witness :
    (onAudioReady (fun q => q) sampleState 2 2 [5, 6]).1.recordedSampleCount =
      sampleState.recordedSampleCount + 2 :=
  ((capture_gating (fun q => q) sampleState 2 2 [5, 6] rfl (by decide) rfl rfl).1
    (by decide)).2

/-- C5: `stop` never modifies the frame clock; a subsequent `start` with
no intervening `reset` still sees exactly the clock value at the moment of
`stop`; and `stop` on a non-running engine changes nothing. -/
theorem stop_resumption (s : EngineState) (d : DeviceOutcome) :
    (stop s).currentFrame = s.currentFrame ∧
    (start d (stop s)).currentFrame = s.currentFrame ∧
    (s.isRunning = false → stop s = s) := by
  refine ⟨stop_currentFrame s, ?_, ?_⟩
  · rw [start_currentFrame, stop_currentFrame]
  · intro h
    simp [stop, h]

theorem stop_resumption_witness :
    stop { sampleState with isRunning := false } =
      { sampleState with isRunning := false } :=
  (stop_resumption { sampleState with isRunning := false }
    ⟨true, true, true, true⟩).2.2 rfl

/-- C6: `seekToFrame` overwrites the clock with the given value — any
`Int`, negative or beyond any track, with no bounds check — and changes no
other state (tracks, recording flag, threshold, counter); the very next
callback mixes at the new value and advances the clock from it. -/
theorem seek_overrides (s : EngineState) (frame : Int) (tanh : ℚ → ℚ)
    (numFrames : Nat) (readCount : Int) (micData : List Int) :
    (seekToFrame s frame).currentFrame = frame ∧
    (seekToFrame s frame).tracks = s.tracks ∧
    (seekToFrame s frame).isRecording = s.isRecording ∧
    (seekToFrame s frame).recordStartFrame = s.recordStartFrame ∧
    (seekToFrame s frame).recordedSampleCount = s.recordedSampleCount ∧
    (onAudioReady tanh (seekToFrame s frame) numFrames readCount micData).2 =
        softClipPass tanh numFrames (mixTracks s.tracks frame numFrames) ∧
    (onAudioReady tanh (seekToFrame s frame) numFrames readCount micData).1.currentFrame =
        frame + (numFrames : Int) := by
  refine ⟨rfl, rfl, rfl, rfl, rfl, rfl, ?_⟩
  rw [onAudioReady_currentFrame]
  rfl

/-- C7: `reset` clears the running flag, fully closes both streams and
sets the frame clock to 0 from every engine state, so a following `start`
(which never writes the clock) begins mixing from frame 0. -/
theorem reset_zeroes_clock (s : EngineState) (d : DeviceOutcome) :
    (reset s).currentFrame = 0 ∧
    (reset s).playStream = none ∧
    (reset s).recordStream = none ∧
    (reset s).isRunning = false ∧
    (start d (reset s)).currentFrame = 0 := by
  refine ⟨rfl, rfl, rfl, rfl, ?_⟩
  rw [start_currentFrame]
  rfl

/-- C8: when `startRecording` fails to open the sink, the enabled flag is
left exactly as it was (in particular recording stays disabled when it was
disabled), the captured-sample counter is 0 and the sink is not open; the
flag is set to true exactly on a successful open. The operation is total —
no error is propagated. -/
theorem recording_open_failure (s : EngineState) (startFrame : Int) :
    (startRecording s false startFrame).isRecording = s.isRecording ∧
    (s.isRecording = false →
      (startRecording s false startFrame).isRecording = false) ∧
    (startRecording s false startFrame).recordedSampleCount = 0 ∧
    (startRecording s false startFrame).recordingFileOpen = false ∧
    (startRecording s true startFrame).isRecording = true := by
  refine ⟨rfl, ?_, rfl, rfl, rfl⟩
  intro h
  exact h

theorem recording_open_failure_witness :
    (startRecording { sampleState with isRecording := false } false 7).isRecording =
      false :=
  (recording_open_failure { sampleState with isRecording := false } 7).2.1 rfl

/-- C9: `loadTrack` converts every 16-bit sample by the fixed scale
`1 / 32768` with no clamping: `-32768` maps to exactly `-1`, `32767` maps
to `32767 / 32768` which is just under `1`, an out-of-range value such as
`65536` is simply scaled (to `2`), and the loaded track holds exactly the
converted samples with `lengthFrames` equal to the sample count. -/
theorem load_conversion (s : EngineState) (trackId : String) (data : List Int)
    (startFrame : Int) :
    convertSample (-32768) = -1 ∧
    convertSample 32767 = 32767 / 32768 ∧
    (32767 : ℚ) / 32768 < 1 ∧
    convertSample 65536 = 2 ∧
    (∀ v : Int, convertSample v = (v : ℚ) / 32768) ∧
    (loadTrack s trackId data startFrame).tracks =
      s.tracks ++ [{ data := data.map convertSample
                     startFrame := startFrame
                     lengthFrames := (data.length : Int) }] := by
  refine ⟨by norm_num [convertSample], by norm_num [convertSample],
    by norm_num, by norm_num [convertSample], ?_, rfl⟩
  intro v
  simp only [convertSample]
  ring

/-- C10: even a failed `startRecording` first overwrites the gating
threshold with the new start frame and zeroes the captured-sample counter,
so after the failed call the two getters report the new threshold and 0
rather than any previous session's values. -/
theorem failed_start_recording_state (s : EngineState) (startFrame : Int) :
    getRecordingStartFrame (startRecording s false startFrame) = startFrame ∧
    getRecordedSampleCount (startRecording s false startFrame) = 0 :=
  ⟨rfl, rfl⟩

end AudioEngine
